import Mathlib

/-!
Verification of the data-reshaping core of the Cactus performance dashboard
(`app.py`): the date-densification / cumulative-sum transform, the chart
builders, the query gateway and the error-log browser, shallowly embedded as
Lean list functions.

Conventions of the embedding:
* a DataFrame is a list of rows; calendar days are numbered by `Nat`
  (one unit = one day, matching `freq='D'`);
* `tokens_generated` is an `Int` in the main model (the numeric case), and a
  dynamic `Val` (number or string) in the second model, which captures how
  pandas object-dtype addition behaves on non-numeric entries;
* Python exceptions are `Except String`.
-/

namespace App

/-- One row of the `get_generated_tokens_new` result after
`rename(columns={'t': 'time'})` and `pd.to_datetime`: columns
`time`, `device_manufacturer`, `tokens_generated`. -/
structure MetricRow where
  time : Nat
  device_manufacturer : String
  tokens_generated : Int
deriving DecidableEq, Repr

/-- A row of the densified output, with the extra `cumulative_tokens`
column added by the groupby-cumsum step. -/
structure CumRow where
  time : Nat
  device_manufacturer : String
  tokens_generated : Int
  cumulative_tokens : Int
deriving DecidableEq, Repr

/-- `pd.date_range(start=lo, end=hi, freq='D')`: every day from `lo` to `hi`
inclusive, ascending. -/
def date_range (lo hi : Nat) : List Nat :=
  (List.range (hi + 1 - lo)).map (fun i => lo + i)

/-- Helper for `uniqueList`: keep the first occurrence of each value, dropping
values already in `seen`. -/
def uniqueAux {α : Type} [DecidableEq α] (seen : List α) : List α → List α
  | [] => []
  | c :: rest =>
      if c ∈ seen then uniqueAux seen rest else c :: uniqueAux (c :: seen) rest

/-- `Series.unique()`: the distinct values of a column, in order of first
appearance. -/
def uniqueList {α : Type} [DecidableEq α] (l : List α) : List α := uniqueAux [] l

/-- `Series.min()` over a column of day numbers (`getD 0` is never reached on
the non-empty inputs the code guards for). -/
def colMin (l : List Nat) : Nat := (l.min?).getD 0

/-- `Series.max()` over a column of day numbers. -/
def colMax (l : List Nat) : Nat := (l.max?).getD 0

/-- `pd.MultiIndex.from_product([date_range, all_devices])`: the full cross
product, dates outermost. -/
def grid (dates : List Nat) (devices : List String) : List (Nat × String) :=
  dates.flatMap (fun d => devices.map (fun c => (d, c)))

/-- `cumulative_tokens.groupby(['time','device_manufacturer'])['tokens_generated'].sum().reset_index()`:
one row per observed (time, device) key holding the sum of that key's
`tokens_generated` entries.  (pandas emits the keys sorted; the order is
irrelevant to the keyed left-merge below, so first-appearance order is used.) -/
def daily_tokens (rows : List MetricRow) : List (Nat × String × Int) :=
  (uniqueList (rows.map (fun r => (r.time, r.device_manufacturer)))).map
    (fun k => (k.1, k.2,
      ((rows.filter (fun r => decide (r.time = k.1 ∧ r.device_manufacturer = k.2))).map
        MetricRow.tokens_generated).sum))

/-- The keyed lookup performed by `pd.merge(..., on=['time','device_manufacturer'],
how='left')`: the summed value attached to key `(d, c)`, if that key occurs. -/
def lookupKey {α : Type} (daily : List (Nat × String × α)) (d : Nat) (c : String) :
    Option α :=
  (daily.find? (fun e => decide (e.1 = d ∧ e.2.1 = c))).map (fun e => e.2.2)

/-- `pd.merge(grid, daily_tokens, on=['time','device_manufacturer'],
how='left').fillna(0)`: every grid cell, carrying its daily sum, with absent
cells filled by 0. -/
def merged_df (rows : List MetricRow) : List (Nat × String × Int) :=
  (grid (date_range (colMin (rows.map MetricRow.time)) (colMax (rows.map MetricRow.time)))
      (uniqueList (rows.map MetricRow.device_manufacturer))).map
    (fun p => (p.1, p.2, (lookupKey (daily_tokens rows) p.1 p.2).getD 0))

/-- The comparison used by `sort_values(['device_manufacturer','time'])`:
lexicographic on (device, time), strings compared lexicographically. -/
def rowLE {α : Type} (a b : Nat × String × α) : Prop :=
  a.2.1 < b.2.1 ∨ (a.2.1 = b.2.1 ∧ a.1 ≤ b.1)

instance {α : Type} (a b : Nat × String × α) : Decidable (rowLE a b) :=
  decidable_of_iff (a.2.1.toList < b.2.1.toList ∨ (a.2.1 = b.2.1 ∧ a.1 ≤ b.1))
    (by unfold rowLE; rw [String.lt_iff_toList_lt])

/-- `merged_df.sort_values(['device_manufacturer','time'])`: reorder the rows
so that the (device, time) keys ascend.  The grid's keys are pairwise
distinct, so any correct sort produces the same list; a simple insertion sort
is used. -/
def sort_values {α : Type} (l : List (Nat × String × α)) : List (Nat × String × α) :=
  l.insertionSort rowLE

/-- `merged_df.groupby('device_manufacturer')['tokens_generated'].cumsum()`:
walk the rows in order, keeping a per-device running total `acc`, and attach
the updated total to each row as `cumulative_tokens`. -/
def cumsumAux : List (Nat × String × Int) → (String → Int) → List CumRow
  | [], _ => []
  | (d, c, v) :: rest, acc =>
      ⟨d, c, v, acc c + v⟩ :: cumsumAux rest (fun x => if x = c then acc c + v else acc x)

/-- The densification block of `app.py` (lines 151-171): if the fetched table
is empty the block is skipped and the result stays empty; otherwise build the
date×device grid, aggregate duplicate (time, device) rows by sum, left-merge
and zero-fill, sort by (device, time), and take per-device running sums. -/
def densify_and_accumulate (rows : List MetricRow) : List CumRow :=
  if rows.isEmpty then []
  else cumsumAux (sort_values (merged_df rows)) (fun _ => 0)

/-! ### Dynamic-value model of the same block

pandas stores a column that contains non-numeric entries with object dtype,
and aggregates it with Python `+`: number + number adds, string + string
concatenates, and a mixed addition raises `TypeError`.  `Val` and the
`..Dyn` pipeline replay the block under that semantics so that its behaviour
on non-numeric `tokens_generated` entries can be settled. -/

/-- A dynamically typed cell value: a number or a string. -/
inductive Val where
  | num (n : Int)
  | str (s : String)
deriving DecidableEq, Repr

/-- Python `+` as pandas applies it inside object-dtype reductions. -/
def Val.add : Val → Val → Except String Val
  | .num a, .num b => .ok (.num (a + b))
  | .str a, .str b => .ok (.str (a ++ b))
  | _, _ => .error "TypeError: unsupported operand types for +"

/-- Whether a cell value is numeric. -/
def Val.isNum : Val → Bool
  | .num _ => true
  | .str _ => false

/-- A `get_generated_tokens_new` row whose `tokens_generated` cell kept its
dynamic type. -/
structure DynRow where
  time : Nat
  device_manufacturer : String
  tokens_generated : Val
deriving DecidableEq, Repr

/-- A densified output row in the dynamic model. -/
structure DynCumRow where
  time : Nat
  device_manufacturer : String
  tokens_generated : Val
  cumulative_tokens : Val
deriving DecidableEq, Repr

/-- `Series.sum()` on an object-dtype group: reduce with `+` starting from the
first element (so an all-string group concatenates instead of raising). -/
def sumVals : List Val → Except String Val
  | [] => .ok (Val.num 0)
  | v :: rest => rest.foldlM Val.add v

/-- `groupby(['time','device_manufacturer'])['tokens_generated'].sum()` in the
dynamic model: any group whose reduction raises makes the whole step raise. -/
def daily_tokens_dyn (rows : List DynRow) : Except String (List (Nat × String × Val)) :=
  (uniqueList (rows.map (fun r => (r.time, r.device_manufacturer)))).mapM
    (fun k => do
      let s ← sumVals
        ((rows.filter (fun r => decide (r.time = k.1 ∧ r.device_manufacturer = k.2))).map
          DynRow.tokens_generated)
      pure (k.1, k.2, s))

/-- `groupby('device_manufacturer')['tokens_generated'].cumsum()` on an
object-dtype column: within each device the first row keeps its own value and
each later row adds (with Python `+`) onto the previous running value. -/
def cumsumAuxDyn : List (Nat × String × Val) → (String → Option Val) →
    Except String (List DynCumRow)
  | [], _ => .ok []
  | (d, c, v) :: rest, acc => do
      let s ← match acc c with
        | none => Except.ok v
        | some s0 => s0.add v
      let out ← cumsumAuxDyn rest (fun x => if x = c then some s else acc x)
      .ok (⟨d, c, v, s⟩ :: out)

/-- The densification block replayed under object-dtype (dynamic) semantics
for the `tokens_generated` column. -/
def densify_and_accumulate_dyn (rows : List DynRow) : Except String (List DynCumRow) :=
  if rows.isEmpty then .ok []
  else do
    let daily ← daily_tokens_dyn rows
    let merged :=
      (grid (date_range (colMin (rows.map DynRow.time)) (colMax (rows.map DynRow.time)))
          (uniqueList (rows.map DynRow.device_manufacturer))).map
        (fun p => (p.1, p.2, (lookupKey daily p.1 p.2).getD (Val.num 0)))
    cumsumAuxDyn (sort_values merged) (fun _ => none)

/-! ### Query gateway -/

/-- The RPC invocation `run_sql_snippet` dispatches to: `rpc(name, params)`
when `params` is truthy (Python: not `None` and non-empty), else
`rpc(name, {})`. -/
def rpc_dispatch {β : Type}
    (rpc : String → List (String × List String) → Except String (List β))
    (snippet_name : String) (params : Option (List (String × List String))) :
    Except String (List β) :=
  match params with
  | some p => if ¬ p.isEmpty then rpc snippet_name p else rpc snippet_name []
  | none => rpc snippet_name []

/-- `run_sql_snippet` (app.py lines 41-54).  The Supabase RPC call is the
external collaborator, passed in as `rpc`; it may return rows or raise
(`Except.error`).  The whole body sits in a `try`, so a raise is turned into
one `st.error` warning and an empty DataFrame.  The returned pair is
(warnings emitted, resulting table). -/
def run_sql_snippet {β : Type}
    (rpc : String → List (String × List String) → Except String (List β))
    (snippet_name : String) (params : Option (List (String × List String))) :
    List String × List β :=
  match rpc_dispatch rpc snippet_name params with
  | .ok data => ([], data)
  | .error e => (["Error running snippet '" ++ snippet_name ++ "': " ++ e], [])

/-! ### Chart builders -/

/-- The declarative Altair chart description assembled by the two builders:
just the encoding choices the builders make. -/
structure ChartSpec where
  mark : String
  x_field : String
  x_timeUnit : String
  x_title : String
  y_field : String
  y_title : String
  y_axis_format : Option String
  color_field : String
  legend_title : String
  tooltip : List String
  title : String
deriving DecidableEq, Repr

/-- `create_stacked_bar_chart` (app.py lines 56-74): on an empty frame emit
one `st.warning` and return `None`; otherwise build a bar chart summing
`value_col` per day, coloured by `category_col`.  The returned pair is
(warnings emitted, optional chart). -/
def create_stacked_bar_chart {α : Type} (df : List α)
    (time_col value_col category_col title y_axis_title : String)
    (y_axis_format : Option String := none) : List String × Option ChartSpec :=
  if df.isEmpty then (["No data for: " ++ title], none)
  else
    ([], some
      { mark := "bar"
        x_field := time_col ++ ":T"
        x_timeUnit := "yearmonthdate"
        x_title := "Time"
        y_field := "sum(" ++ value_col ++ "):Q"
        y_title := y_axis_title
        y_axis_format := y_axis_format
        color_field := category_col ++ ":N"
        legend_title := "Framework"
        tooltip := [time_col, "sum(" ++ value_col ++ ")", category_col]
        title := title })

/-- `create_line_chart` (app.py lines 76-94): on an empty frame emit one
`st.warning` and return `None`; otherwise build a line chart of the raw
`value_col`, coloured by `category_col`. -/
def create_line_chart {α : Type} (df : List α)
    (time_col value_col category_col title y_axis_title : String)
    (y_axis_format : Option String := none) : List String × Option ChartSpec :=
  if df.isEmpty then (["No data for: " ++ title], none)
  else
    ([], some
      { mark := "line"
        x_field := time_col ++ ":T"
        x_timeUnit := "yearmonthdate"
        x_title := "Time"
        y_field := value_col ++ ":Q"
        y_title := y_axis_title
        y_axis_format := y_axis_format
        color_field := category_col ++ ":N"
        legend_title := "Framework"
        tooltip := [time_col, value_col, category_col]
        title := title })

/-! ### Error-log browser -/

/-- Python `str.upper()`: uppercase every character. -/
def str_upper (s : String) : String := ⟨s.data.map Char.toUpper⟩

/-- One fetched error-log row, as the loop at app.py lines 222-245 reads it:
each column may be absent (`row.get` with a default).  `error_payload` is a
JSON object, modelled as an association list. -/
structure ErrorLogRow where
  error_payload : Option (List (String × String))
  framework : Option String
  errors : Option String
  last_seen_summary : Option String
  last_seen : Option String
  first_seen : Option String
deriving DecidableEq, Repr

/-- What the loop body renders for one error-log row. -/
structure LogEntry where
  expander_title : String
  framework_metric : String
  count_metric : String
  last_seen_metric : String
  first_seen_caption : String
  stack_block : Option String
deriving DecidableEq, Repr

/-- The loop body of the raw-error-log section (app.py lines 222-245):
`row.get('error_payload', {})`, `payload.get('message', 'No message found')`,
`row.get(..., 'N/A')` defaults, the f-string expander title, and the
stack-trace block shown only when `payload.get('stack')` is truthy (a
non-empty string). -/
def build_log_entry (row : ErrorLogRow) : LogEntry :=
  let payload := row.error_payload.getD []
  let message := (payload.lookup "message").getD "No message found"
  let framework := row.framework.getD "N/A"
  let error_count := row.errors.getD "N/A"
  let last_seen_summary := row.last_seen_summary.getD "N/A"
  { expander_title := "[" ++ str_upper framework ++ "] " ++ message ++
      " | Count: " ++ error_count ++ " | Last seen: " ++ last_seen_summary
    framework_metric := framework
    count_metric := error_count
    last_seen_metric := row.last_seen.getD "N/A"
    first_seen_caption := "First seen: " ++ row.first_seen.getD "N/A"
    stack_block := match payload.lookup "stack" with
      | some s => if s.isEmpty then none else some s
      | none => none }

/-! ### Derived notions used to state and prove the properties -/

/-- The value the left-merge-and-fill attaches to cell `(d, c)`: the sum of the
input `tokens_generated` entries at that (time, device) pair (0 when none). -/
def cellSum (rows : List MetricRow) (d : Nat) (c : String) : Int :=
  ((rows.filter (fun r => decide (r.time = d ∧ r.device_manufacturer = c))).map
    MetricRow.tokens_generated).sum

/-- Per-device running totals in isolation: what the groupby-cumsum computes
along the rows of one device, starting from running total `s`. -/
def cumsumOne : List (Nat × String × Int) → Int → List CumRow
  | [], _ => []
  | (d, c, v) :: rest, s => ⟨d, c, v, s + v⟩ :: cumsumOne rest (s + v)

/-- The set of (date, device) pairs a densified table covers. -/
def pairSet (l : List CumRow) : Finset (Nat × String) :=
  (l.map (fun r => (r.time, r.device_manufacturer))).toFinset

/-- Feeding the densifier its own output, with the cumulative column taken as
the value column. -/
def rerun_input (rows : List MetricRow) : List MetricRow :=
  (densify_and_accumulate rows).map
    (fun r => ⟨r.time, r.device_manufacturer, r.cumulative_tokens⟩)

/-! ### Basic facts about the building blocks -/

lemma mem_date_range {lo hi d : Nat} : d ∈ date_range lo hi ↔ lo ≤ d ∧ d ≤ hi := by
  simp only [date_range, List.mem_map, List.mem_range]
  constructor
  · rintro ⟨i, hi', rfl⟩; omega
  · rintro ⟨h1, h2⟩; exact ⟨d - lo, by omega, by omega⟩

lemma length_date_range (lo hi : Nat) : (date_range lo hi).length = hi + 1 - lo := by
  simp [date_range]

lemma pairwise_lt_date_range (lo hi : Nat) : (date_range lo hi).Pairwise (· < ·) := by
  refine List.Pairwise.map _ (fun a b h => ?_) (List.pairwise_lt_range _)
  omega

lemma nodup_date_range (lo hi : Nat) : (date_range lo hi).Nodup :=
  (pairwise_lt_date_range lo hi).imp Nat.ne_of_lt

lemma mem_uniqueAux {α : Type} [DecidableEq α] {a : α} :
    ∀ (l seen : List α), a ∈ uniqueAux seen l ↔ a ∈ l ∧ a ∉ seen := by
  intro l
  induction l with
  | nil => intro seen; simp [uniqueAux]
  | cons c rest ih =>
      intro seen
      by_cases hc : c ∈ seen
      · rw [uniqueAux, if_pos hc, ih]
        constructor
        · rintro ⟨h1, h2⟩
          exact ⟨List.mem_cons_of_mem _ h1, h2⟩
        · rintro ⟨h1, h2⟩
          rcases List.mem_cons.mp h1 with rfl | h1'
          · exact absurd hc h2
          · exact ⟨h1', h2⟩
      · rw [uniqueAux, if_neg hc]
        by_cases hac : a = c
        · subst hac
          simp [hc]
        · rw [List.mem_cons]
          simp only [hac, false_or, ih]
          constructor
          · rintro ⟨h1, h2⟩
            exact ⟨List.mem_cons_of_mem _ h1, fun hs => h2 (List.mem_cons_of_mem _ hs)⟩
          · rintro ⟨h1, h2⟩
            rcases List.mem_cons.mp h1 with rfl | h1'
            · exact absurd rfl hac
            · exact ⟨h1', fun hs => by
                rcases List.mem_cons.mp hs with rfl | hs'
                · exact hac rfl
                · exact h2 hs'⟩

lemma mem_uniqueList {α : Type} [DecidableEq α] {l : List α} {a : α} :
    a ∈ uniqueList l ↔ a ∈ l := by
  rw [uniqueList, mem_uniqueAux]
  simp

lemma nodup_uniqueAux {α : Type} [DecidableEq α] :
    ∀ (l seen : List α), (uniqueAux seen l).Nodup := by
  intro l
  induction l with
  | nil => intro seen; simp [uniqueAux]
  | cons c rest ih =>
      intro seen
      by_cases hc : c ∈ seen
      · rw [uniqueAux, if_pos hc]
        exact ih seen
      · rw [uniqueAux, if_neg hc]
        refine List.Nodup.cons (fun hmem => ?_) (ih _)
        exact ((mem_uniqueAux rest (c :: seen)).mp hmem).2 (List.mem_cons_self _ _)

lemma nodup_uniqueList {α : Type} [DecidableEq α] (l : List α) :
    (uniqueList l).Nodup := nodup_uniqueAux l []

lemma colMin_spec {l : List Nat} (h : l ≠ []) :
    colMin l ∈ l ∧ ∀ b ∈ l, colMin l ≤ b := by
  obtain ⟨x, xs, rfl⟩ := List.exists_cons_of_ne_nil h
  have hsome : (x :: xs).min? = some (colMin (x :: xs)) := by
    simp [colMin, List.min?_cons]
  exact (List.min?_eq_some_iff (fun _ => le_refl _) (fun a b => min_choice a b)
    (fun _ _ _ => le_min_iff)).mp hsome

lemma colMax_spec {l : List Nat} (h : l ≠ []) :
    colMax l ∈ l ∧ ∀ b ∈ l, b ≤ colMax l := by
  obtain ⟨x, xs, rfl⟩ := List.exists_cons_of_ne_nil h
  have hsome : (x :: xs).max? = some (colMax (x :: xs)) := by
    simp [colMax, List.max?_cons]
  exact (List.max?_eq_some_iff (fun _ => le_refl _) (fun a b => max_choice a b)
    (fun _ _ _ => max_le_iff)).mp hsome

lemma colMin_le_colMax {l : List Nat} (h : l ≠ []) : colMin l ≤ colMax l :=
  (colMin_spec h).2 _ (colMax_spec h).1

lemma find?_eq_self {α : Type} [DecidableEq α] {l : List α} {a : α} (h : a ∈ l) :
    l.find? (fun x => decide (x = a)) = some a := by
  induction l with
  | nil => cases h
  | cons x xs ih =>
      by_cases hx : x = a
      · subst hx; simp [List.find?_cons]
      · rw [List.find?_cons_of_neg _ (by simpa using hx)]
        exact ih (by
          rcases List.mem_cons.mp h with h' | h'
          · exact absurd h'.symm hx
          · exact h')

/-- The merge's keyed lookup into `daily_tokens` is exactly the per-cell sum:
present keys carry their group sum, absent keys fall to the 0 fill, which is
also the sum over the (empty) set of matching rows. -/
lemma lookupKey_daily (rows : List MetricRow) (d : Nat) (c : String) :
    (lookupKey (daily_tokens rows) d c).getD 0 = cellSum rows d c := by
  unfold lookupKey daily_tokens
  rw [List.find?_map]
  by_cases hk : (d, c) ∈ uniqueList (rows.map (fun r => (r.time, r.device_manufacturer)))
  · rw [show ((fun e : Nat × String × Int => decide (e.1 = d ∧ e.2.1 = c)) ∘
          (fun k : Nat × String => (k.1, k.2,
            ((rows.filter (fun r => decide (r.time = k.1 ∧ r.device_manufacturer = k.2))).map
              MetricRow.tokens_generated).sum))) =
        (fun k : Nat × String => decide (k = (d, c))) from funext fun k => by
      simp only [Function.comp]
      refine decide_eq_decide.mpr ?_
      exact ⟨fun hp => Prod.ext hp.1 hp.2, fun hp => by rw [hp]; exact ⟨rfl, rfl⟩⟩]
    rw [find?_eq_self hk]
    rfl
  · rw [List.find?_eq_none.mpr ?_]
    · have hnil : rows.filter (fun r => decide (r.time = d ∧ r.device_manufacturer = c)) = [] := by
        refine List.filter_eq_nil_iff.mpr fun r hr hpr => ?_
        have hp := of_decide_eq_true hpr
        exact hk (mem_uniqueList.mpr (List.mem_map.mpr ⟨r, hr, by
          simp [hp.1, hp.2]⟩))
      unfold cellSum
      rw [hnil]
      rfl
    · intro k hkmem
      simp only [Function.comp, decide_eq_true_eq]
      rintro ⟨h1, h2⟩
      have hkey : k = (d, c) := by
        rcases k with ⟨k1, k2⟩
        simp only at h1 h2
        rw [h1, h2]
      exact hk (hkey ▸ hkmem)

/-- The merged frame is the grid with each cell carrying its daily sum. -/
lemma merged_df_eq (rows : List MetricRow) :
    merged_df rows =
      (grid (date_range (colMin (rows.map MetricRow.time)) (colMax (rows.map MetricRow.time)))
        (uniqueList (rows.map MetricRow.device_manufacturer))).map
        (fun p => (p.1, p.2, cellSum rows p.1 p.2)) := by
  unfold merged_df
  exact List.map_congr_left fun p _ => by rw [lookupKey_daily]

/-- Restricting the merged frame to one device keeps exactly one row per date
of the range, in ascending date order. -/
lemma merged_filter_eq (rows : List MetricRow) (c : String)
    (hc : c ∈ rows.map MetricRow.device_manufacturer) :
    (merged_df rows).filter (fun p => decide (p.2.1 = c)) =
      (date_range (colMin (rows.map MetricRow.time)) (colMax (rows.map MetricRow.time))).map
        (fun d => (d, c, cellSum rows d c)) := by
  have hdev : (uniqueList (rows.map MetricRow.device_manufacturer)).filter
      (fun x => decide (x = c)) = [c] := by
    rw [List.filter_eq,
      List.count_eq_one_of_mem (nodup_uniqueList _) (mem_uniqueList.mpr hc)]
    rfl
  rw [merged_df_eq, List.filter_map]
  rw [show ((fun e : Nat × String × Int => decide (e.2.1 = c)) ∘
      (fun p : Nat × String => (p.1, p.2, cellSum rows p.1 p.2))) =
      (fun p : Nat × String => decide (p.2 = c)) from rfl]
  unfold grid
  rw [List.filter_flatMap]
  have hinner : (fun d => ((uniqueList (rows.map MetricRow.device_manufacturer)).map
        (fun x => (d, x))).filter (fun p : Nat × String => decide (p.2 = c))) =
      (fun d : Nat => [(d, c)]) := by
    funext d
    rw [List.filter_map]
    rw [show ((fun p : Nat × String => decide (p.2 = c)) ∘ (fun x : String => (d, x))) =
        (fun x : String => decide (x = c)) from rfl]
    rw [hdev]
    rfl
  rw [hinner]
  have hsingle : ((date_range (colMin (rows.map MetricRow.time))
        (colMax (rows.map MetricRow.time))).flatMap (fun d : Nat => [(d, c)])) =
      (date_range (colMin (rows.map MetricRow.time))
        (colMax (rows.map MetricRow.time))).map (fun d => (d, c)) := by
    induction date_range (colMin (rows.map MetricRow.time))
        (colMax (rows.map MetricRow.time)) with
    | nil => rfl
    | cons x xs ih => simp only [List.flatMap_cons, List.map_cons, ih]; rfl
  rw [hsingle, List.map_map]
  rfl

/-! ### The sort step -/

lemma rowLE_trans {α : Type} (a b c' : Nat × String × α)
    (h1 : rowLE a b) (h2 : rowLE b c') : rowLE a c' := by
  unfold rowLE at *
  rcases h1 with h1 | ⟨he1, hle1⟩
  · rcases h2 with h2 | ⟨he2, hle2⟩
    · exact Or.inl (lt_trans h1 h2)
    · exact Or.inl (he2 ▸ h1)
  · rcases h2 with h2 | ⟨he2, hle2⟩
    · exact Or.inl (he1 ▸ h2)
    · exact Or.inr ⟨he1.trans he2, le_trans hle1 hle2⟩

lemma rowLE_total {α : Type} (a b : Nat × String × α) : rowLE a b ∨ rowLE b a := by
  unfold rowLE
  rcases lt_trichotomy a.2.1 b.2.1 with h | h | h
  · exact Or.inl (Or.inl h)
  · rcases Nat.le_total a.1 b.1 with h' | h'
    · exact Or.inl (Or.inr ⟨h, h'⟩)
    · exact Or.inr (Or.inr ⟨h.symm, h'⟩)
  · exact Or.inr (Or.inl h)

lemma sort_values_perm {α : Type} (l : List (Nat × String × α)) :
    (sort_values l).Perm l :=
  List.perm_insertionSort _ l

lemma sort_values_pairwise {α : Type} (l : List (Nat × String × α)) :
    (sort_values l).Pairwise rowLE := by
  haveI : IsTotal (Nat × String × α) rowLE := ⟨rowLE_total⟩
  haveI : IsTrans (Nat × String × α) rowLE := ⟨rowLE_trans⟩
  exact List.sorted_insertionSort _ l

/-! ### The cumulative-sum step -/

/-- The first three fields of the cumsum output reproduce its input rows
exactly: the step only appends a column. -/
lemma map_cumsumAux (l : List (Nat × String × Int)) :
    ∀ acc, (cumsumAux l acc).map
      (fun r => (r.time, r.device_manufacturer, r.tokens_generated)) = l := by
  induction l with
  | nil => intro acc; rfl
  | cons hd tl ih =>
      intro acc
      obtain ⟨d, c, v⟩ := hd
      simp only [cumsumAux, List.map_cons, ih]

lemma length_cumsumAux (l : List (Nat × String × Int)) (acc : String → Int) :
    (cumsumAux l acc).length = l.length := by
  have := congrArg List.length (map_cumsumAux l acc)
  simpa using this

/-- Restricting the cumsum output to one device yields that device's isolated
running totals, started from the device's current accumulator value. -/
lemma filter_cumsumAux (l : List (Nat × String × Int)) (c : String) :
    ∀ acc, (cumsumAux l acc).filter (fun r => decide (r.device_manufacturer = c)) =
      cumsumOne (l.filter (fun p => decide (p.2.1 = c))) (acc c) := by
  induction l with
  | nil => intro acc; rfl
  | cons hd tl ih =>
      intro acc
      obtain ⟨d, c', v⟩ := hd
      rw [show cumsumAux ((d, c', v) :: tl) acc =
          ⟨d, c', v, acc c' + v⟩ ::
            cumsumAux tl (fun x => if x = c' then acc c' + v else acc x) from rfl]
      by_cases h : c' = c
      · subst h
        rw [List.filter_cons_of_pos (by simp), ih]
        rw [List.filter_cons_of_pos (by simp)]
        rw [show cumsumOne ((d, c', v) :: tl.filter (fun p => decide (p.2.1 = c'))) (acc c') =
            ⟨d, c', v, acc c' + v⟩ ::
              cumsumOne (tl.filter (fun p => decide (p.2.1 = c'))) (acc c' + v) from rfl]
        simp
      · rw [List.filter_cons_of_neg (by simpa using h), ih]
        rw [List.filter_cons_of_neg (by simpa using h)]
        simp only [if_neg (show ¬c = c' from fun hcc => h hcc.symm)]

/-- Each row of an isolated running-total list over strictly increasing dates:
its device is `c`, its value is the cell value at its date, and its cumulative
is the start value plus the cell values at all dates up to its own. -/
lemma cumsumOne_mem (g : Nat → Int) (c : String) :
    ∀ (ds : List Nat) (s : Int), ds.Pairwise (· < ·) →
      ∀ r ∈ cumsumOne (ds.map (fun d => (d, c, g d))) s,
        r.device_manufacturer = c ∧ r.time ∈ ds ∧ r.tokens_generated = g r.time ∧
        r.cumulative_tokens = s + ((ds.filter (fun d => decide (d ≤ r.time))).map g).sum := by
  intro ds
  induction ds with
  | nil => intro s _ r hr; cases hr
  | cons d tl ih =>
      intro s hsort r hr
      have htl : ∀ x ∈ tl, d < x := fun x hx => (List.pairwise_cons.mp hsort).1 x hx
      rcases List.mem_cons.mp hr with hhd | htail
      · subst hhd
        refine ⟨rfl, List.mem_cons_self _ _, rfl, ?_⟩
        simp only [List.filter_cons, decide_eq_true_eq, if_pos (le_refl d)]
        have hnone : tl.filter (fun x => decide (x ≤ d)) = [] :=
          List.filter_eq_nil_iff.mpr fun x hx hle =>
            absurd (of_decide_eq_true hle) (not_le.mpr (htl x hx))
        simp [hnone]
      · obtain ⟨hc, hmem, hval, hcum⟩ :=
          ih (s + g d) (List.pairwise_cons.mp hsort).2 r htail
        refine ⟨hc, List.mem_cons_of_mem _ hmem, hval, ?_⟩
        have hdle : d ≤ r.time := le_of_lt (htl _ hmem)
        simp only [List.filter_cons, decide_eq_true_eq, if_pos hdle, List.map_cons,
          List.sum_cons]
        rw [hcum]
        ring

/-- The dates along an isolated running-total list are its date list. -/
lemma cumsumOne_map_time (g : Nat → Int) (c : String) :
    ∀ (ds : List Nat) (s : Int),
      (cumsumOne (ds.map (fun d => (d, c, g d))) s).map CumRow.time = ds := by
  intro ds
  induction ds with
  | nil => intro s; rfl
  | cons d tl ih => intro s; simp only [List.map_cons, cumsumOne, ih]

/-- After the (device, time) sort, the rows of one device are exactly one row
per date of the range in ascending date order, each carrying its cell sum. -/
lemma sorted_filter_eq (rows : List MetricRow) (c : String)
    (hc : c ∈ rows.map MetricRow.device_manufacturer) :
    (sort_values (merged_df rows)).filter (fun p => decide (p.2.1 = c)) =
      (date_range (colMin (rows.map MetricRow.time)) (colMax (rows.map MetricRow.time))).map
        (fun d => (d, c, cellSum rows d c)) := by
  have hperm : ((sort_values (merged_df rows)).filter (fun p => decide (p.2.1 = c))).Perm
      ((date_range (colMin (rows.map MetricRow.time))
        (colMax (rows.map MetricRow.time))).map (fun d => (d, c, cellSum rows d c))) := by
    have h := (sort_values_perm (merged_df rows)).filter (fun p => decide (p.2.1 = c))
    rw [merged_filter_eq rows c hc] at h
    exact h
  have hRpw : ((date_range (colMin (rows.map MetricRow.time))
      (colMax (rows.map MetricRow.time))).map (fun d => (d, c, cellSum rows d c))).Pairwise
      (fun a b : Nat × String × Int => a.1 < b.1) :=
    List.Pairwise.map _ (fun a b h => h) (pairwise_lt_date_range _ _)
  have hRnd : ((date_range (colMin (rows.map MetricRow.time))
      (colMax (rows.map MetricRow.time))).map (fun d => (d, c, cellSum rows d c))).Nodup :=
    hRpw.imp fun h => by
      intro heq; rw [heq] at h; exact lt_irrefl _ h
  have hmemF : ∀ x ∈ (sort_values (merged_df rows)).filter (fun p => decide (p.2.1 = c)),
      x = (x.1, c, cellSum rows x.1 c) := by
    intro x hx
    obtain ⟨d, _, rfl⟩ := List.mem_map.mp (hperm.mem_iff.mp hx)
    rfl
  have hLnd : ((sort_values (merged_df rows)).filter (fun p => decide (p.2.1 = c))).Nodup :=
    hperm.nodup_iff.mpr hRnd
  have hLle : ((sort_values (merged_df rows)).filter (fun p => decide (p.2.1 = c))).Pairwise
      (fun a b : Nat × String × Int => rowLE a b) :=
    (sort_values_pairwise _).sublist (List.filter_sublist _)
  have hLpw : ((sort_values (merged_df rows)).filter (fun p => decide (p.2.1 = c))).Pairwise
      (fun a b : Nat × String × Int => a.1 < b.1) := by
    refine (hLle.and hLnd).imp_of_mem ?_
    intro a b ha hb hab
    have haF := hmemF a ha
    have hbF := hmemF b hb
    have hcats : a.2.1 = b.2.1 := by rw [haF, hbF]
    have hle : a.1 ≤ b.1 := by
      have h1 := hab.1
      unfold rowLE at h1
      rcases h1 with h1 | h1
      · rw [hcats] at h1; exact absurd h1 (lt_irrefl _)
      · exact h1.2
    rcases Nat.lt_or_ge a.1 b.1 with h | h
    · exact h
    · have : a.1 = b.1 := le_antisymm hle h
      have : a = b := by rw [haF, hbF, this]
      exact absurd this hab.2
  haveI : IsAntisymm (Nat × String × Int) (fun a b => a.1 < b.1) :=
    ⟨fun a b h1 h2 => ((by omega : ¬(a.1 < b.1 ∧ b.1 < a.1)) ⟨h1, h2⟩).elim⟩
  exact List.eq_of_perm_of_sorted hperm hLpw hRpw

/-- The whole densification pipeline, restricted to one device of the input:
one row per date of the range, in ascending date order, carrying the daily
cell sums and their running totals from 0. -/
lemma densify_filter_eq (rows : List MetricRow) (c : String)
    (hne : rows ≠ []) (hc : c ∈ rows.map MetricRow.device_manufacturer) :
    (densify_and_accumulate rows).filter (fun r => decide (r.device_manufacturer = c)) =
      cumsumOne ((date_range (colMin (rows.map MetricRow.time))
        (colMax (rows.map MetricRow.time))).map (fun d => (d, c, cellSum rows d c))) 0 := by
  unfold densify_and_accumulate
  rw [if_neg (by simpa [List.isEmpty_iff] using hne)]
  rw [filter_cumsumAux, sorted_filter_eq rows c hc]

/-- Sums over a filter split across a disjoint disjunction of predicates. -/
lemma sum_filter_or_disjoint {α : Type} (f : α → Int) (p q : α → Bool) :
    ∀ l : List α, (∀ x ∈ l, ¬(p x = true ∧ q x = true)) →
      ((l.filter (fun x => p x || q x)).map f).sum =
        ((l.filter p).map f).sum + ((l.filter q).map f).sum := by
  intro l
  induction l with
  | nil => intro _; rfl
  | cons a tl ih =>
      intro hdisj
      have htl := ih fun x hx => hdisj x (List.mem_cons_of_mem _ hx)
      rw [List.filter_cons, List.filter_cons, List.filter_cons]
      by_cases hp : p a = true
      · by_cases hq : q a = true
        · exact absurd ⟨hp, hq⟩ (hdisj a (List.mem_cons_self _ _))
        · rw [if_pos (show (p a || q a) = true by simp [hp]), if_pos hp, if_neg hq,
            List.map_cons, List.sum_cons, List.map_cons, List.sum_cons, htl]
          ring
      · by_cases hq : q a = true
        · rw [if_pos (show (p a || q a) = true by simp [hq]), if_neg hp, if_pos hq,
            List.map_cons, List.sum_cons, List.map_cons, List.sum_cons, htl]
          ring
        · rw [if_neg (show ¬(p a || q a) = true by simp [hp, hq]), if_neg hp, if_neg hq]
          exact htl

/-- Summing the per-cell daily sums over a duplicate-free set of dates equals
summing the matching input rows directly. -/
lemma cellSum_exchange (rows : List MetricRow) (c : String) :
    ∀ ds : List Nat, ds.Nodup →
      (ds.map (fun d => cellSum rows d c)).sum =
        ((rows.filter (fun r => decide (r.time ∈ ds ∧ r.device_manufacturer = c))).map
          MetricRow.tokens_generated).sum := by
  intro ds
  induction ds with
  | nil =>
      intro _
      have : rows.filter
          (fun r => decide (r.time ∈ ([] : List Nat) ∧ r.device_manufacturer = c)) = [] :=
        List.filter_eq_nil_iff.mpr fun r _ hpr => by
          have := of_decide_eq_true hpr
          exact absurd this.1 (List.not_mem_nil _)
      rw [this]
      rfl
  | cons d tl ih =>
      intro hnd
      have hdn : d ∉ tl := (List.nodup_cons.mp hnd).1
      rw [List.map_cons, List.sum_cons, ih (List.nodup_cons.mp hnd).2]
      have hpredeq : (fun r : MetricRow => decide (r.time ∈ d :: tl ∧ r.device_manufacturer = c)) =
          (fun r : MetricRow => decide (r.time = d ∧ r.device_manufacturer = c) ||
            decide (r.time ∈ tl ∧ r.device_manufacturer = c)) := by
        funext r
        by_cases h1 : r.time = d
        · by_cases hp : r.device_manufacturer = c <;> simp [h1, hp]
        · by_cases h2 : r.time ∈ tl
          · by_cases hp : r.device_manufacturer = c <;> simp [h1, h2, hp]
          · by_cases hp : r.device_manufacturer = c <;> simp [h1, h2, hp]
      rw [hpredeq, sum_filter_or_disjoint MetricRow.tokens_generated _ _ rows ?_]
      · rfl
      · intro r _ hcontra
        obtain ⟨h1, h2⟩ := hcontra
        have h1' := of_decide_eq_true h1
        have h2' := of_decide_eq_true h2
        exact hdn (h1'.1 ▸ h2'.1)

/-- Every input row's time lies inside the observed date range. -/
lemma time_bounds (rows : List MetricRow) (hne : rows ≠ []) :
    ∀ x ∈ rows, colMin (rows.map MetricRow.time) ≤ x.time ∧
      x.time ≤ colMax (rows.map MetricRow.time) := by
  intro x hx
  have hmapne : rows.map MetricRow.time ≠ [] := by simpa using hne
  exact ⟨(colMin_spec hmapne).2 _ (List.mem_map_of_mem _ hx),
    (colMax_spec hmapne).2 _ (List.mem_map_of_mem _ hx)⟩

/-- Running totals never decrease when every value is non-negative. -/
lemma cumsumOne_chain (l : List (Nat × String × Int)) (hpos : ∀ p ∈ l, 0 ≤ p.2.2) :
    ∀ s : Int, List.Chain' (fun a b : CumRow => a.cumulative_tokens ≤ b.cumulative_tokens)
      (cumsumOne l s) := by
  induction l with
  | nil => intro s; exact List.chain'_nil
  | cons hd tl ih =>
      intro s
      obtain ⟨d, c, v⟩ := hd
      have htl : ∀ p ∈ tl, 0 ≤ p.2.2 := fun p hp => hpos p (List.mem_cons_of_mem _ hp)
      cases tl with
      | nil => exact List.chain'_singleton _
      | cons hd' tl' =>
          obtain ⟨d', c', v'⟩ := hd'
          refine List.chain'_cons.mpr ⟨?_, ih htl (s + v)⟩
          have hv' : (0 : Int) ≤ v' := htl _ (List.mem_cons_self _ _)
          simp only [cumsumOne]
          omega

/-- Every output row of a device carries as cumulative value the sum of that
device's input values at dates up to the row's own date. -/
lemma densify_cumulative (rows : List MetricRow) (c : String)
    (hne : rows ≠ []) (hc : c ∈ rows.map MetricRow.device_manufacturer) :
    ∀ r ∈ densify_and_accumulate rows, r.device_manufacturer = c →
      r.cumulative_tokens =
        ((rows.filter (fun x => decide (x.device_manufacturer = c ∧ x.time ≤ r.time))).map
          MetricRow.tokens_generated).sum := by
  intro r hr hrc
  have hrmem : r ∈ (densify_and_accumulate rows).filter
      (fun x => decide (x.device_manufacturer = c)) :=
    List.mem_filter.mpr ⟨hr, by simp [hrc]⟩
  rw [densify_filter_eq rows c hne hc] at hrmem
  obtain ⟨-, -, -, hcum⟩ := cumsumOne_mem (fun d => cellSum rows d c) c _ 0
    (pairwise_lt_date_range _ _) r hrmem
  rw [hcum, zero_add]
  rw [cellSum_exchange rows c _ ((nodup_date_range _ _).filter _)]
  refine congrArg (fun l => (List.map MetricRow.tokens_generated l).sum)
    (List.filter_congr fun x hx => ?_)
  have hb := time_bounds rows hne x hx
  by_cases hd : x.device_manufacturer = c
  · by_cases ht : x.time ≤ r.time
    · have hmem : x.time ∈ (date_range (colMin (rows.map MetricRow.time))
          (colMax (rows.map MetricRow.time))).filter (fun d => decide (d ≤ r.time)) :=
        List.mem_filter.mpr ⟨mem_date_range.mpr ⟨hb.1, hb.2⟩, by simp [ht]⟩
      simp [hmem, hd, ht]
    · have hmem : x.time ∉ (date_range (colMin (rows.map MetricRow.time))
          (colMax (rows.map MetricRow.time))).filter (fun d => decide (d ≤ r.time)) := by
        intro hcon
        exact ht (of_decide_eq_true (List.mem_filter.mp hcon).2)
      simp [hmem, hd, ht]
  · simp [hd]

/-- The output has a row for the device at the last observed date, and its
cumulative value is the device's whole input total. -/
lemma densify_last_date (rows : List MetricRow) (c : String)
    (hne : rows ≠ []) (hc : c ∈ rows.map MetricRow.device_manufacturer) :
    ∃ r ∈ densify_and_accumulate rows, r.device_manufacturer = c ∧
      r.time = colMax (rows.map MetricRow.time) ∧
      r.cumulative_tokens =
        ((rows.filter (fun x => decide (x.device_manufacturer = c))).map
          MetricRow.tokens_generated).sum := by
  have hmapne : rows.map MetricRow.time ≠ [] := by simpa using hne
  have hhi : colMax (rows.map MetricRow.time) ∈
      date_range (colMin (rows.map MetricRow.time)) (colMax (rows.map MetricRow.time)) :=
    mem_date_range.mpr ⟨colMin_le_colMax hmapne, le_refl _⟩
  have htimes := cumsumOne_map_time (fun d => cellSum rows d c) c
    (date_range (colMin (rows.map MetricRow.time)) (colMax (rows.map MetricRow.time))) 0
  have : colMax (rows.map MetricRow.time) ∈
      (cumsumOne ((date_range (colMin (rows.map MetricRow.time))
        (colMax (rows.map MetricRow.time))).map (fun d => (d, c, cellSum rows d c))) 0).map
        CumRow.time := by rw [htimes]; exact hhi
  obtain ⟨r, hrmem, hrt⟩ := List.mem_map.mp this
  rw [← densify_filter_eq rows c hne hc] at hrmem
  obtain ⟨hrd, hrc⟩ := List.mem_filter.mp hrmem
  have hrc' : r.device_manufacturer = c := of_decide_eq_true hrc
  refine ⟨r, hrd, hrc', hrt, ?_⟩
  rw [densify_cumulative rows c hne hc r hrd hrc']
  refine congrArg (fun l => (List.map MetricRow.tokens_generated l).sum)
    (List.filter_congr fun x hx => ?_)
  have hb := time_bounds rows hne x hx
  by_cases hd : x.device_manufacturer = c
  · simp [hd, hrt ▸ hb.2]
  · simp [hd]

/-- The `tokens_generated` entries found at one date inside a device's
running-total list are that date's cell values. -/
lemma cumsumOne_filter_time_map (g : Nat → Int) (c : String) (d : Nat) :
    ∀ (ds : List Nat) (s : Int),
      ((cumsumOne (ds.map (fun x => (x, c, g x))) s).filter
        (fun r => decide (r.time = d))).map CumRow.tokens_generated =
      (ds.filter (fun x => decide (x = d))).map g := by
  intro ds
  induction ds with
  | nil => intro s; rfl
  | cons d' tl ih =>
      intro s
      rw [List.map_cons,
        show cumsumOne ((d', c, g d') :: tl.map (fun x => (x, c, g x))) s =
          ⟨d', c, g d', s + g d'⟩ :: cumsumOne (tl.map (fun x => (x, c, g x))) (s + g d')
          from rfl]
      by_cases h : d' = d
      · rw [List.filter_cons_of_pos (by simp [h]), List.map_cons, ih,
          List.filter_cons_of_pos (by simp [h]), List.map_cons]
      · rw [List.filter_cons_of_neg (by simp [h]), ih,
          List.filter_cons_of_neg (by simp [h])]

/-! ### Counting rows and pairs -/

lemma sum_map_const_nat {α : Type} (l : List α) (k : Nat) :
    (l.map (fun _ => k)).sum = l.length * k := by
  induction l with
  | nil => simp
  | cons a tl ih => simp [ih, Nat.succ_mul]; ring

/-- The output has one row per grid cell: (days spanned) × (distinct devices). -/
lemma densify_length (rows : List MetricRow) (hne : rows ≠ []) :
    (densify_and_accumulate rows).length =
      (colMax (rows.map MetricRow.time) + 1 - colMin (rows.map MetricRow.time)) *
        (uniqueList (rows.map MetricRow.device_manufacturer)).length := by
  unfold densify_and_accumulate
  rw [if_neg (by simpa [List.isEmpty_iff] using hne)]
  rw [length_cumsumAux, (sort_values_perm _).length_eq, merged_df_eq, List.length_map]
  unfold grid
  rw [List.length_flatMap]
  have hconst : (List.map (List.length ∘ fun d : Nat =>
      (uniqueList (rows.map MetricRow.device_manufacturer)).map (fun c => (d, c)))
      (date_range (colMin (rows.map MetricRow.time)) (colMax (rows.map MetricRow.time)))) =
      (date_range (colMin (rows.map MetricRow.time)) (colMax (rows.map MetricRow.time))).map
        (fun _ => (uniqueList (rows.map MetricRow.device_manufacturer)).length) :=
    List.map_congr_left fun d _ => by simp [Function.comp]
  rw [hconst, sum_map_const_nat, length_date_range]

/-- Each (date, device) pair of the grid occurs exactly once in the output. -/
lemma densify_countP_pair (rows : List MetricRow) (hne : rows ≠ []) (d : Nat) (c : String)
    (hd : d ∈ date_range (colMin (rows.map MetricRow.time)) (colMax (rows.map MetricRow.time)))
    (hc : c ∈ rows.map MetricRow.device_manufacturer) :
    (densify_and_accumulate rows).countP
      (fun r => decide (r.time = d ∧ r.device_manufacturer = c)) = 1 := by
  have hsplit : (densify_and_accumulate rows).filter
      (fun r => decide (r.time = d ∧ r.device_manufacturer = c)) =
      ((densify_and_accumulate rows).filter
        (fun r => decide (r.device_manufacturer = c))).filter
        (fun r => decide (r.time = d)) := by
    rw [List.filter_filter]
    exact (List.filter_congr fun x _ => by
      by_cases h1 : x.time = d <;> by_cases h2 : x.device_manufacturer = c <;>
        simp [h1, h2]).symm
  rw [List.countP_eq_length_filter, hsplit, densify_filter_eq rows c hne hc,
    ← List.countP_eq_length_filter]
  have hproj : (cumsumOne ((date_range (colMin (rows.map MetricRow.time))
      (colMax (rows.map MetricRow.time))).map
        (fun d' => (d', c, cellSum rows d' c))) 0).countP (fun r => decide (r.time = d)) =
      ((cumsumOne ((date_range (colMin (rows.map MetricRow.time))
        (colMax (rows.map MetricRow.time))).map
          (fun d' => (d', c, cellSum rows d' c))) 0).map CumRow.time).countP
        (fun t => decide (t = d)) := by
    rw [List.countP_map]
    rfl
  rw [hproj, cumsumOne_map_time, List.countP_eq_length_filter, List.filter_eq,
    List.length_replicate, List.count_eq_one_of_mem (nodup_date_range _ _) hd]

/-! ### The pair set of an output, and rerunning the densifier -/

lemma mem_pairSet {l : List CumRow} {p : Nat × String} :
    p ∈ pairSet l ↔ ∃ r ∈ l, (r.time, r.device_manufacturer) = p := by
  unfold pairSet
  rw [List.mem_toFinset, List.mem_map]

lemma mem_grid {dates : List Nat} {devices : List String} {d : Nat} {c : String} :
    (d, c) ∈ grid dates devices ↔ d ∈ dates ∧ c ∈ devices := by
  unfold grid
  rw [List.mem_flatMap]
  constructor
  · rintro ⟨a, ha, hmem⟩
    obtain ⟨x, hx, hpair⟩ := List.mem_map.mp hmem
    injection hpair with h1 h2
    exact ⟨h1 ▸ ha, h2 ▸ hx⟩
  · rintro ⟨h1, h2⟩
    exact ⟨d, h1, List.mem_map.mpr ⟨c, h2, rfl⟩⟩

/-- The (date, device) pairs of the output are, as a multiset, the grid. -/
lemma densify_map_pairs (rows : List MetricRow) (hne : rows ≠ []) :
    ((densify_and_accumulate rows).map (fun r => (r.time, r.device_manufacturer))).Perm
      (grid (date_range (colMin (rows.map MetricRow.time)) (colMax (rows.map MetricRow.time)))
        (uniqueList (rows.map MetricRow.device_manufacturer))) := by
  unfold densify_and_accumulate
  rw [if_neg (by simpa [List.isEmpty_iff] using hne)]
  have h1 : (cumsumAux (sort_values (merged_df rows)) (fun _ => 0)).map
      (fun r => (r.time, r.device_manufacturer)) =
      (sort_values (merged_df rows)).map (fun p => (p.1, p.2.1)) := by
    have h0 := congrArg (List.map (fun t : Nat × String × Int => (t.1, t.2.1)))
      (map_cumsumAux (sort_values (merged_df rows)) (fun _ => 0))
    rw [List.map_map] at h0
    exact h0
  rw [h1]
  have h2 := (sort_values_perm (merged_df rows)).map
    (fun p : Nat × String × Int => (p.1, p.2.1))
  have h3 : (merged_df rows).map (fun p : Nat × String × Int => (p.1, p.2.1)) =
      grid (date_range (colMin (rows.map MetricRow.time)) (colMax (rows.map MetricRow.time)))
        (uniqueList (rows.map MetricRow.device_manufacturer)) := by
    rw [merged_df_eq, List.map_map]
    have hid : ((fun p : Nat × String × Int => (p.1, p.2.1)) ∘
        (fun p : Nat × String => (p.1, p.2, cellSum rows p.1 p.2))) = id := by
      funext p
      rfl
    rw [hid, List.map_id]
  rw [h3] at h2
  exact h2

/-- Membership in the output's pair set: the full date range crossed with the
observed devices. -/
lemma pairSet_densify (rows : List MetricRow) (hne : rows ≠ []) (d : Nat) (c : String) :
    (d, c) ∈ pairSet (densify_and_accumulate rows) ↔
      colMin (rows.map MetricRow.time) ≤ d ∧ d ≤ colMax (rows.map MetricRow.time) ∧
        c ∈ rows.map MetricRow.device_manufacturer := by
  unfold pairSet
  rw [List.mem_toFinset, (densify_map_pairs rows hne).mem_iff, mem_grid,
    mem_date_range, mem_uniqueList]
  tauto

lemma densify_ne_nil (rows : List MetricRow) (hne : rows ≠ []) :
    densify_and_accumulate rows ≠ [] := by
  intro h
  have hlen := densify_length rows hne
  rw [h] at hlen
  have hmapne : rows.map MetricRow.time ≠ [] := by simpa using hne
  have h1 := colMin_le_colMax hmapne
  have h2 : uniqueList (rows.map MetricRow.device_manufacturer) ≠ [] := by
    have hdevne : rows.map MetricRow.device_manufacturer ≠ [] := by simpa using hne
    obtain ⟨x, xs, hx⟩ := List.exists_cons_of_ne_nil hdevne
    rw [hx]
    simp [uniqueList, uniqueAux]
  have h3 : (uniqueList (rows.map MetricRow.device_manufacturer)).length ≠ 0 := by
    simpa [List.length_eq_zero] using h2
  simp only [List.length_nil] at hlen
  rcases Nat.mul_eq_zero.mp hlen.symm with h4 | h4
  · omega
  · exact h3 h4

lemma colMin_eq_of {l : List Nat} {a : Nat} (hmem : a ∈ l) (hle : ∀ b ∈ l, a ≤ b) :
    colMin l = a := by
  have h : l.min? = some a := (List.min?_eq_some_iff (fun _ => le_refl _)
    (fun a b => min_choice a b) (fun _ _ _ => le_min_iff)).mpr ⟨hmem, hle⟩
  simp [colMin, h]

lemma colMax_eq_of {l : List Nat} {a : Nat} (hmem : a ∈ l) (hle : ∀ b ∈ l, b ≤ a) :
    colMax l = a := by
  have h : l.max? = some a := (List.max?_eq_some_iff (fun _ => le_refl _)
    (fun a b => max_choice a b) (fun _ _ _ => max_le_iff)).mpr ⟨hmem, hle⟩
  simp [colMax, h]

lemma rerun_map_time (rows : List MetricRow) :
    (rerun_input rows).map MetricRow.time = (densify_and_accumulate rows).map CumRow.time := by
  unfold rerun_input
  rw [List.map_map]
  rfl

lemma rerun_map_dev (rows : List MetricRow) :
    (rerun_input rows).map MetricRow.device_manufacturer =
      (densify_and_accumulate rows).map CumRow.device_manufacturer := by
  unfold rerun_input
  rw [List.map_map]
  rfl

lemma densify_time_mem (rows : List MetricRow) (hne : rows ≠ []) {t : Nat}
    (ht : t ∈ (densify_and_accumulate rows).map CumRow.time) :
    colMin (rows.map MetricRow.time) ≤ t ∧ t ≤ colMax (rows.map MetricRow.time) := by
  obtain ⟨r, hr, rfl⟩ := List.mem_map.mp ht
  have hpair : (r.time, r.device_manufacturer) ∈ pairSet (densify_and_accumulate rows) :=
    mem_pairSet.mpr ⟨r, hr, rfl⟩
  have h := (pairSet_densify rows hne _ _).mp hpair
  exact ⟨h.1, h.2.1⟩

lemma densify_has_min_time (rows : List MetricRow) (hne : rows ≠ []) :
    colMin (rows.map MetricRow.time) ∈ (densify_and_accumulate rows).map CumRow.time := by
  have hdevne : rows.map MetricRow.device_manufacturer ≠ [] := by simpa using hne
  obtain ⟨c0, cs, hc0⟩ := List.exists_cons_of_ne_nil hdevne
  have hc0mem : c0 ∈ rows.map MetricRow.device_manufacturer := by
    rw [hc0]
    exact List.mem_cons_self _ _
  have hmapne : rows.map MetricRow.time ≠ [] := by simpa using hne
  have hpair : (colMin (rows.map MetricRow.time), c0) ∈
      pairSet (densify_and_accumulate rows) :=
    (pairSet_densify rows hne _ _).mpr ⟨le_refl _, colMin_le_colMax hmapne, hc0mem⟩
  obtain ⟨r, hr, hpr⟩ := mem_pairSet.mp hpair
  injection hpr with h1 h2
  exact List.mem_map.mpr ⟨r, hr, h1⟩

lemma densify_has_max_time (rows : List MetricRow) (hne : rows ≠ []) :
    colMax (rows.map MetricRow.time) ∈ (densify_and_accumulate rows).map CumRow.time := by
  have hdevne : rows.map MetricRow.device_manufacturer ≠ [] := by simpa using hne
  obtain ⟨c0, cs, hc0⟩ := List.exists_cons_of_ne_nil hdevne
  have hc0mem : c0 ∈ rows.map MetricRow.device_manufacturer := by
    rw [hc0]
    exact List.mem_cons_self _ _
  have hmapne : rows.map MetricRow.time ≠ [] := by simpa using hne
  have hpair : (colMax (rows.map MetricRow.time), c0) ∈
      pairSet (densify_and_accumulate rows) :=
    (pairSet_densify rows hne _ _).mpr ⟨colMin_le_colMax hmapne, le_refl _, hc0mem⟩
  obtain ⟨r, hr, hpr⟩ := mem_pairSet.mp hpair
  injection hpr with h1 h2
  exact List.mem_map.mpr ⟨r, hr, h1⟩

lemma rerun_colMin (rows : List MetricRow) (hne : rows ≠ []) :
    colMin ((rerun_input rows).map MetricRow.time) = colMin (rows.map MetricRow.time) := by
  rw [rerun_map_time]
  exact colMin_eq_of (densify_has_min_time rows hne)
    (fun b hb => (densify_time_mem rows hne hb).1)

lemma rerun_colMax (rows : List MetricRow) (hne : rows ≠ []) :
    colMax ((rerun_input rows).map MetricRow.time) = colMax (rows.map MetricRow.time) := by
  rw [rerun_map_time]
  exact colMax_eq_of (densify_has_max_time rows hne)
    (fun b hb => (densify_time_mem rows hne hb).2)

lemma rerun_dev_iff (rows : List MetricRow) (hne : rows ≠ []) (c : String) :
    c ∈ (rerun_input rows).map MetricRow.device_manufacturer ↔
      c ∈ rows.map MetricRow.device_manufacturer := by
  rw [rerun_map_dev]
  constructor
  · intro h
    obtain ⟨r, hr, rfl⟩ := List.mem_map.mp h
    have hpair : (r.time, r.device_manufacturer) ∈ pairSet (densify_and_accumulate rows) :=
      mem_pairSet.mpr ⟨r, hr, rfl⟩
    exact ((pairSet_densify rows hne _ _).mp hpair).2.2
  · intro h
    have hmapne : rows.map MetricRow.time ≠ [] := by simpa using hne
    have hpair : (colMin (rows.map MetricRow.time), c) ∈
        pairSet (densify_and_accumulate rows) :=
      (pairSet_densify rows hne _ _).mpr ⟨le_refl _, colMin_le_colMax hmapne, h⟩
    obtain ⟨r, hr, hpr⟩ := mem_pairSet.mp hpair
    injection hpr with h1 h2
    exact List.mem_map.mpr ⟨r, hr, h2⟩

/-! ### The claims -/

/-- C1: for every non-empty input table, the densified output contains every
(date, device) pair of [min date, max date] × (distinct devices of the input)
exactly once, so its row count is (days spanned inclusive) × (distinct
devices). -/
theorem C1_dense_grid_exactly_once (rows : List MetricRow) (hne : rows ≠ []) :
    (∀ d ∈ date_range (colMin (rows.map MetricRow.time)) (colMax (rows.map MetricRow.time)),
      ∀ c ∈ uniqueList (rows.map MetricRow.device_manufacturer),
        (densify_and_accumulate rows).countP
          (fun r => decide (r.time = d ∧ r.device_manufacturer = c)) = 1) ∧
    (densify_and_accumulate rows).length =
      (colMax (rows.map MetricRow.time) + 1 - colMin (rows.map MetricRow.time)) *
        (uniqueList (rows.map MetricRow.device_manufacturer)).length :=
  ⟨fun d hd c hc => densify_countP_pair rows hne d c hd (mem_uniqueList.mp hc),
    densify_length rows hne⟩

/-- C1 at the spec's concrete scenario (3 days × 2 devices = 6 rows). -/
theorem C1_witness :
    (densify_and_accumulate [⟨1, "A", 5⟩, ⟨3, "A", 2⟩, ⟨2, "B", 1⟩]).length =
      (colMax ([⟨1, "A", 5⟩, ⟨3, "A", 2⟩, ⟨2, "B", 1⟩].map MetricRow.time) + 1 -
        colMin ([⟨1, "A", 5⟩, ⟨3, "A", 2⟩, ⟨2, "B", 1⟩].map MetricRow.time)) *
        (uniqueList ([⟨1, "A", 5⟩, ⟨3, "A", 2⟩,
          ⟨2, "B", 1⟩].map MetricRow.device_manufacturer)).length :=
  (C1_dense_grid_exactly_once [⟨1, "A", 5⟩, ⟨3, "A", 2⟩, ⟨2, "B", 1⟩] (by decide)).2

/-- C2: for every device of a non-empty input, each output row of that device
carries as cumulative value the sum of the device's input values at dates up
to the row's date; in particular the row at the last (maximum) date carries
the sum of all of the device's input values. -/
theorem C2_cumulative_is_prefix_sum (rows : List MetricRow) (c : String)
    (hne : rows ≠ []) (hc : c ∈ rows.map MetricRow.device_manufacturer) :
    (∀ r ∈ densify_and_accumulate rows, r.device_manufacturer = c →
      r.cumulative_tokens =
        ((rows.filter (fun x => decide (x.device_manufacturer = c ∧ x.time ≤ r.time))).map
          MetricRow.tokens_generated).sum) ∧
    (∃ r ∈ densify_and_accumulate rows, r.device_manufacturer = c ∧
      r.time = colMax (rows.map MetricRow.time) ∧
      r.cumulative_tokens =
        ((rows.filter (fun x => decide (x.device_manufacturer = c))).map
          MetricRow.tokens_generated).sum) :=
  ⟨densify_cumulative rows c hne hc, densify_last_date rows c hne hc⟩

/-- C2 at the spec's concrete scenario: device "A" ends at total 7. -/
theorem C2_witness :
    ∃ r ∈ densify_and_accumulate [⟨1, "A", 5⟩, ⟨3, "A", 2⟩, ⟨2, "B", 1⟩],
      r.device_manufacturer = "A" ∧
      r.time = colMax ([⟨1, "A", 5⟩, ⟨3, "A", 2⟩, ⟨2, "B", 1⟩].map MetricRow.time) ∧
      r.cumulative_tokens =
        (([⟨1, "A", 5⟩, ⟨3, "A", 2⟩, ⟨2, "B", 1⟩].filter
          (fun x => decide (x.device_manufacturer = "A"))).map
            MetricRow.tokens_generated).sum :=
  (C2_cumulative_is_prefix_sum [⟨1, "A", 5⟩, ⟨3, "A", 2⟩, ⟨2, "B", 1⟩] "A"
    (by decide) (by decide)).2

/-- C3: when every input value is non-negative, the cumulative column of a
device's rows (the output is sorted by (device, date) ascending, so the
device's partition is its filtered subsequence) never decreases. -/
theorem C3_cumulative_monotone (rows : List MetricRow) (c : String)
    (hne : rows ≠ []) (hc : c ∈ rows.map MetricRow.device_manufacturer)
    (hpos : ∀ r ∈ rows, 0 ≤ r.tokens_generated) :
    List.Chain' (fun a b : CumRow => a.cumulative_tokens ≤ b.cumulative_tokens)
      ((densify_and_accumulate rows).filter
        (fun r => decide (r.device_manufacturer = c))) := by
  rw [densify_filter_eq rows c hne hc]
  refine cumsumOne_chain _ ?_ 0
  intro p hp
  obtain ⟨d, hd, rfl⟩ := List.mem_map.mp hp
  refine List.sum_nonneg ?_
  intro x hx
  obtain ⟨y, hy, rfl⟩ := List.mem_map.mp hx
  exact hpos y (List.mem_filter.mp hy).1

/-- C3 at the spec's concrete scenario for device "B". -/
theorem C3_witness :
    List.Chain' (fun a b : CumRow => a.cumulative_tokens ≤ b.cumulative_tokens)
      ((densify_and_accumulate [⟨1, "A", 5⟩, ⟨3, "A", 2⟩, ⟨2, "B", 1⟩]).filter
        (fun r => decide (r.device_manufacturer = "B"))) :=
  C3_cumulative_monotone [⟨1, "A", 5⟩, ⟨3, "A", 2⟩, ⟨2, "B", 1⟩] "B"
    (by decide) (by decide) (by decide)

/-- C4 counterexample: an input with non-numeric (string) `tokens_generated`
entries is NOT rejected with a type error: the group sum silently
concatenates "5" and "2" into "52" and the transform succeeds. -/
theorem C4_counterexample :
    (([⟨0, "A", Val.str "5"⟩, ⟨0, "A", Val.str "2"⟩] : List DynRow).any
      (fun r => !r.tokens_generated.isNum)) = true ∧
    densify_and_accumulate_dyn [⟨0, "A", Val.str "5"⟩, ⟨0, "A", Val.str "2"⟩] =
      .ok [⟨0, "A", Val.str "52", Val.str "52"⟩] := ⟨rfl, rfl⟩

/-- C4 amended: a non-numeric `tokens_generated` entry does not in general
abort the transform: a (date, device) group whose entries are all strings is
silently combined by concatenation; the type error arises exactly from an
addition that mixes a string with a number (for instance a string entry
meeting the numeric 0 fill of an absent cell, as in the second input). -/
theorem C4_amended_mixed_additions_only (s : String) (n : Int) :
    densify_and_accumulate_dyn [⟨0, "A", Val.str "5"⟩, ⟨0, "A", Val.str "2"⟩] =
      .ok [⟨0, "A", Val.str "52", Val.str "52"⟩] ∧
    densify_and_accumulate_dyn [⟨0, "A", Val.str "5"⟩, ⟨1, "A", Val.num 1⟩] =
      .error "TypeError: unsupported operand types for +" ∧
    Val.add (Val.str s) (Val.num n) =
      .error "TypeError: unsupported operand types for +" ∧
    Val.add (Val.num n) (Val.str s) =
      .error "TypeError: unsupported operand types for +" :=
  ⟨rfl, rfl, rfl, rfl⟩

/-- C5: the query gateway either returns the backend's rows (no warning), or
the dispatched backend call fails and it returns the empty table after exactly
one warning; being a total function of the backend's outcome, it never lets
the failure escape as an exception. -/
theorem C5_gateway_never_crashes {β : Type}
    (rpc : String → List (String × List String) → Except String (List β))
    (snippet_name : String) (params : Option (List (String × List String))) :
    (∃ data, rpc_dispatch rpc snippet_name params = .ok data ∧
      run_sql_snippet rpc snippet_name params = ([], data)) ∨
    (∃ e, rpc_dispatch rpc snippet_name params = .error e ∧
      run_sql_snippet rpc snippet_name params =
        (["Error running snippet '" ++ snippet_name ++ "': " ++ e], [])) := by
  cases hr : rpc_dispatch rpc snippet_name params with
  | ok data =>
      refine Or.inl ⟨data, rfl, ?_⟩
      unfold run_sql_snippet
      rw [hr]
  | error e =>
      refine Or.inr ⟨e, rfl, ?_⟩
      unfold run_sql_snippet
      rw [hr]

/-- C6: each chart builder returns nothing-to-render with exactly one warning
precisely when the input is empty (and never raises: both are total), and on
non-empty input binds x to the day-truncated time column, y to the value
column (summed per x for the bar builder), and colour to the category
column. -/
theorem C6_chart_builders {α : Type} (df : List α)
    (time_col value_col category_col title y_axis_title : String)
    (fmt : Option String) :
    ((create_stacked_bar_chart df time_col value_col category_col title y_axis_title fmt =
        (["No data for: " ++ title], none) ∧
      create_line_chart df time_col value_col category_col title y_axis_title fmt =
        (["No data for: " ++ title], none)) ↔ df = []) ∧
    (df ≠ [] →
      create_stacked_bar_chart df time_col value_col category_col title y_axis_title fmt =
        ([], some
          { mark := "bar", x_field := time_col ++ ":T", x_timeUnit := "yearmonthdate",
            x_title := "Time", y_field := "sum(" ++ value_col ++ "):Q",
            y_title := y_axis_title, y_axis_format := fmt,
            color_field := category_col ++ ":N", legend_title := "Framework",
            tooltip := [time_col, "sum(" ++ value_col ++ ")", category_col],
            title := title }) ∧
      create_line_chart df time_col value_col category_col title y_axis_title fmt =
        ([], some
          { mark := "line", x_field := time_col ++ ":T", x_timeUnit := "yearmonthdate",
            x_title := "Time", y_field := value_col ++ ":Q",
            y_title := y_axis_title, y_axis_format := fmt,
            color_field := category_col ++ ":N", legend_title := "Framework",
            tooltip := [time_col, value_col, category_col],
            title := title })) := by
  constructor
  · constructor
    · rintro ⟨h1, h2⟩
      by_contra hdf
      have hemp : ¬ (df.isEmpty = true) := by simpa [List.isEmpty_iff] using hdf
      unfold create_stacked_bar_chart at h1
      rw [if_neg hemp] at h1
      exact absurd (congrArg Prod.snd h1) (by simp)
    · rintro rfl
      constructor <;> rfl
  · intro hdf
    have hemp : ¬ (df.isEmpty = true) := by simpa [List.isEmpty_iff] using hdf
    constructor
    · unfold create_stacked_bar_chart
      rw [if_neg hemp]
    · unfold create_line_chart
      rw [if_neg hemp]

/-- C6 at a concrete non-empty frame: the line builder's bindings. -/
theorem C6_witness :
    create_line_chart ([0] : List Nat) "time" "success_rate" "framework"
        "Daily Success Rate" "Success Rate (%)" (some "%") =
      ([], some
        { mark := "line", x_field := "time" ++ ":T", x_timeUnit := "yearmonthdate",
          x_title := "Time", y_field := "success_rate" ++ ":Q",
          y_title := "Success Rate (%)", y_axis_format := some "%",
          color_field := "framework" ++ ":N", legend_title := "Framework",
          tooltip := ["time", "success_rate", "framework"],
          title := "Daily Success Rate" }) :=
  ((C6_chart_builders ([0] : List Nat) "time" "success_rate" "framework"
    "Daily Success Rate" "Success Rate (%)" (some "%")).2 (by decide)).2

/-- C7: duplicate input rows for one (date, device) pair are aggregated by
summation, not overwritten: the single output row at that pair carries the sum
of all matching input values. -/
theorem C7_duplicates_summed (rows : List MetricRow) (d : Nat) (c : String)
    (i j : Fin rows.length) (hij : (i : Nat) ≠ (j : Nat))
    (hi : (rows.get i).time = d ∧ (rows.get i).device_manufacturer = c)
    (hj : (rows.get j).time = d ∧ (rows.get j).device_manufacturer = c) :
    ((densify_and_accumulate rows).filter
        (fun r => decide (r.time = d ∧ r.device_manufacturer = c))).map
      CumRow.tokens_generated =
    [((rows.filter (fun r => decide (r.time = d ∧ r.device_manufacturer = c))).map
      MetricRow.tokens_generated).sum] := by
  have hne : rows ≠ [] := by
    intro h
    subst h
    exact absurd i.isLt (by simp)
  have hmi : rows.get i ∈ rows := rows.get_mem i.1 i.2
  have hd' : d ∈ date_range (colMin (rows.map MetricRow.time))
      (colMax (rows.map MetricRow.time)) := by
    have hb := time_bounds rows hne _ hmi
    rw [hi.1] at hb
    exact mem_date_range.mpr hb
  have hc' : c ∈ rows.map MetricRow.device_manufacturer :=
    hi.2 ▸ List.mem_map_of_mem _ hmi
  have hsplit : (densify_and_accumulate rows).filter
      (fun r => decide (r.time = d ∧ r.device_manufacturer = c)) =
      ((densify_and_accumulate rows).filter
        (fun r => decide (r.device_manufacturer = c))).filter
        (fun r => decide (r.time = d)) := by
    rw [List.filter_filter]
    exact (List.filter_congr fun x _ => by
      by_cases h1 : x.time = d <;> by_cases h2 : x.device_manufacturer = c <;>
        simp [h1, h2]).symm
  rw [hsplit, densify_filter_eq rows c hne hc', cumsumOne_filter_time_map,
    List.filter_eq, List.count_eq_one_of_mem (nodup_date_range _ _) hd']
  rfl

/-- C7 at a concrete duplicate pair: 5 and 2 at the same (date, device) are
summed into 7, not overwritten. -/
theorem C7_witness :
    ((densify_and_accumulate [⟨0, "A", 5⟩, ⟨0, "A", 2⟩]).filter
        (fun r => decide (r.time = 0 ∧ r.device_manufacturer = "A"))).map
      CumRow.tokens_generated = [7] := by
  rw [C7_duplicates_summed [⟨0, "A", 5⟩, ⟨0, "A", 2⟩] 0 "A" ⟨0, by decide⟩ ⟨1, by decide⟩
    (by decide) ⟨rfl, rfl⟩ ⟨rfl, rfl⟩]
  decide

/-- C8: the empty input table produces the empty output table, with no
error (the transform is a total function and the empty guard returns
the empty frame unchanged). -/
theorem C8_empty_input : densify_and_accumulate [] = [] := rfl

/-- C9: re-running the densifier on its own output, with the cumulative
column as the value column, leaves the set of (date, device) pairs
unchanged. -/
theorem C9_regrid_idempotent (rows : List MetricRow) :
    pairSet (densify_and_accumulate (rerun_input rows)) =
      pairSet (densify_and_accumulate rows) := by
  by_cases hne : rows = []
  · subst hne
    rfl
  · have hne2 : rerun_input rows ≠ [] := by
      simpa [rerun_input] using densify_ne_nil rows hne
    refine Finset.ext fun p => ?_
    obtain ⟨d, c⟩ := p
    rw [pairSet_densify _ hne2 d c, pairSet_densify rows hne d c,
      rerun_colMin rows hne, rerun_colMax rows hne, rerun_dev_iff rows hne c]

/-- C10: an error-log row whose 'error_payload', 'framework', 'errors' and
'last_seen_summary' keys are absent is rendered without raising: the payload
defaults to the empty mapping (giving the message 'No message found') and the
other absent fields default to 'N/A' in the title and metrics. -/
theorem C10_missing_fields_default (ls fs : Option String) :
    build_log_entry ⟨none, none, none, none, ls, fs⟩ =
      { expander_title := "[N/A] No message found | Count: N/A | Last seen: N/A",
        framework_metric := "N/A", count_metric := "N/A",
        last_seen_metric := ls.getD "N/A",
        first_seen_caption := "First seen: " ++ fs.getD "N/A",
        stack_block := none } := rfl

end App
